import Mathlib

/-!
Shallow embedding of the `griddy` crate (`src/grid.rs`): a dense 2D grid
`Grid<T>` stored as a vector of row vectors.  Grids are modelled as
`List (List T)`; in-place mutation is modelled by explicit state passing
(`List.set` on rows and cells).  Panicking row indexing is modelled with
`Except`, and the fallible constructor with `Except` as well.
-/

namespace Grid

variable {T : Type}

/-- Number of rows: `Grid::rows_len`, which is `self.grid.len()`. -/
def rows_len (g : List (List T)) : Nat := g.length

/-- Number of columns: `Grid::cols_len`, which matches on `self.grid.len()`,
returning 0 for an empty grid and `self.grid[0].len()` otherwise. -/
def cols_len (g : List (List T)) : Nat :=
  match g with
  | [] => 0
  | r :: _ => r.length

/-- Reading the cell `grid[r][c]`.  Rust indexing panics out of bounds; all
theorems only evaluate `cell` at in-bounds coordinates, where the `default`
fallback of `getD` is never reached. -/
def cell [Inhabited T] (g : List (List T)) (r c : Nat) : T :=
  (g.getD r []).getD c default

/-- `Grid::init(rows, cols, value)`: pushes `rows` copies of
`vec![value; cols]`. -/
def init (rows cols : Nat) (v : T) : List (List T) :=
  List.replicate rows (List.replicate cols v)

/-- The error value returned by `Grid::from_2d` on rows of unequal length. -/
inductive UnequalColumnsError
  | mk
deriving DecidableEq

/-- `Grid::from_2d`: collects every row length, sorts and deduplicates the
collection, and errors when more than one distinct length remains.  The
source's `Vec::sort` is modelled with insertion sort; only the sortedness
matters, since deduplication of a sorted list keeps one copy per distinct
value. -/
def from_2d (grid : List (List T)) : Except UnequalColumnsError (List (List T)) :=
  if (((grid.map List.length).insertionSort (· ≤ ·)).dedup).length > 1 then
    Except.error UnequalColumnsError.mk
  else Except.ok grid

/-- `Grid::from_2d_unchecked`: wraps the rows with no validation. -/
def from_2d_unchecked (grid : List (List T)) : List (List T) := grid

/-- The in-place cell write `self.grid[i][j] = v` (in the source the indices
are always in bounds where this is used; `List.set` is then exact). -/
def setCell (g : List (List T)) (i j : Nat) (v : T) : List (List T) :=
  g.set i ((g.getD i []).set j v)

/-- An inner write loop `for j in 0..m { grid[i][j] = vals j }`. -/
def writeRowVals (g : List (List T)) (i : Nat) (vals : Nat → T) (m : Nat) :
    List (List T) :=
  (List.range m).foldl (fun a j => setCell a i j (vals j)) g

/-- A double write loop `for i in 0..n { for j in 0..m { grid[i][j] = vals i j } }`. -/
def writeGridVals (g : List (List T)) (vals : Nat → Nat → T) (n m : Nat) :
    List (List T) :=
  (List.range n).foldl (fun a i => writeRowVals a i (vals i) m) g

/-- `Grid::transpose`: seeds a `cols_len × rows_len` grid with `self[0][0]`
and writes `g[x][y] = self[y][x]` for `x in 0..cols_len`, `y in 0..rows_len`. -/
def transpose [Inhabited T] (g : List (List T)) : List (List T) :=
  writeGridVals (init (cols_len g) (rows_len g) (cell g 0 0))
    (fun x y => cell g y x) (cols_len g) (rows_len g)

/-- `Grid::rotate`: builds `temp` where `temp[column]` collects
`self[row][column]` for `row` descending over `(0..rows_len).rev()`, then
writes `self[i][j] = temp[i][j]` for `i, j in 0..rows_len`. -/
def rotate [Inhabited T] (g : List (List T)) : List (List T) :=
  let temp := (List.range (rows_len g)).map
    (fun column => ((List.range (rows_len g)).reverse).map
      (fun row => cell g row column))
  writeGridVals g (fun i j => cell temp i j) (rows_len g) (rows_len g)

/-- `Grid::flip_y`: reverses every row in place. -/
def flip_y (g : List (List T)) : List (List T) := g.map List.reverse

/-- `Grid::truncate_rows(size)`: `Vec::truncate`, keeping the first `size` rows. -/
def truncate_rows (g : List (List T)) (size : Nat) : List (List T) := g.take size

/-- `Grid::row_left_coords`: empty on an out-of-bounds input, else the
coordinates `(row, i)` for `i in 0..col`. -/
def row_left_coords (g : List (List T)) (row col : Nat) : List (Nat × Nat) :=
  if row ≥ rows_len g ∨ col ≥ cols_len g then []
  else (List.range col).map (fun i => (row, i))

/-- `Grid::row_right_coords`: empty on an out-of-bounds input, else the
coordinates `(row, i)` for `i in col+1..cols_len`. -/
def row_right_coords (g : List (List T)) (row col : Nat) : List (Nat × Nat) :=
  if row ≥ rows_len g ∨ col ≥ cols_len g then []
  else (List.range' (col + 1) (cols_len g - (col + 1))).map (fun i => (row, i))

/-- `Grid::col_up_coords`: empty on an out-of-bounds input, else the
coordinates `(i, col)` for `i in 0..row`. -/
def col_up_coords (g : List (List T)) (row col : Nat) : List (Nat × Nat) :=
  if row ≥ rows_len g ∨ col ≥ cols_len g then []
  else (List.range row).map (fun i => (i, col))

/-- `Grid::col_down_coords`: empty on an out-of-bounds input, else the
coordinates `(i, col)` for `i in row+1..rows_len`. -/
def col_down_coords (g : List (List T)) (row col : Nat) : List (Nat × Nat) :=
  if row ≥ rows_len g ∨ col ≥ cols_len g then []
  else (List.range' (row + 1) (rows_len g - (row + 1))).map (fun i => (i, col))

/-- `Grid::row_neighbors`: empty on an out-of-bounds input, else the left
neighbor (when `col.checked_sub(1)` is `Some`) then the right neighbor
(when `col + 1 < cols_len`). -/
def row_neighbors (g : List (List T)) (row col : Nat) : List (Nat × Nat) :=
  if row ≥ rows_len g ∨ col ≥ cols_len g then []
  else
    (if col = 0 then [] else [(row, col - 1)]) ++
    (if col + 1 < cols_len g then [(row, col + 1)] else [])

/-- `Grid::col_neighbors`: empty on an out-of-bounds input, else the up
neighbor (when `row.checked_sub(1)` is `Some`) then the down neighbor
(when `row + 1 < rows_len`). -/
def col_neighbors (g : List (List T)) (row col : Nat) : List (Nat × Nat) :=
  if row ≥ rows_len g ∨ col ≥ cols_len g then []
  else
    (if row = 0 then [] else [(row - 1, col)]) ++
    (if row + 1 < rows_len g then [(row + 1, col)] else [])

/-- `Grid::diag_neighbors`: empty on an out-of-bounds input, else up-left,
up-right (under `row.checked_sub(1)`), then down-left, down-right (under
`row + 1 < rows_len`), each guarded by the column bound. -/
def diag_neighbors (g : List (List T)) (row col : Nat) : List (Nat × Nat) :=
  if row ≥ rows_len g ∨ col ≥ cols_len g then []
  else
    (if row = 0 then []
      else
        (if col = 0 then [] else [(row - 1, col - 1)]) ++
        (if col + 1 < cols_len g then [(row - 1, col + 1)] else [])) ++
    (if row + 1 < rows_len g then
        (if col = 0 then [] else [(row + 1, col - 1)]) ++
        (if col + 1 < cols_len g then [(row + 1, col + 1)] else [])
      else [])

/-- `Grid::neighbors`: `row_neighbors`, then `col_neighbors` appended, then
`diag_neighbors` appended. -/
def neighbors (g : List (List T)) (row col : Nat) : List (Nat × Nat) :=
  row_neighbors g row col ++ col_neighbors g row col ++ diag_neighbors g row col

/-- The inner column loop of `Grid::fold_at_row`:
`for x in 0..m { grid[ny][x] = f(grid[ny][x], grid[y][x]) }`. -/
def combineRow [Inhabited T] (g : List (List T)) (ny y m : Nat) (f : T → T → T) :
    List (List T) :=
  (List.range m).foldl
    (fun a x =>
      setCell a ny x (f ((a.getD ny []).getD x default) ((a.getD y []).getD x default)))
    g

/-- The outer loop of `Grid::fold_at_row`: `y` walks `row+1..stop` while the
iterator of target rows (`(0..row).rev()`, passed as the list `newys`) still
yields; each step combines row `ny` with row `y` over `cols_len` columns. -/
def foldLoop [Inhabited T] (f : T → T → T) (stop : Nat) :
    List Nat → Nat → List (List T) → List (List T)
  | newys, y, g =>
    if y < stop then
      match newys with
      | [] => g
      | ny :: rest => foldLoop f stop rest (y + 1) (combineRow g ny y (cols_len g) f)
    else g

/-- `Grid::fold_at_row(row, f)`: runs the pairing loop starting at
`y = row + 1` against targets `(0..row).rev()`, truncates to `row` rows and
returns the grid together with the new `rows_len`. -/
def fold_at_row [Inhabited T] (g : List (List T)) (row : Nat) (f : T → T → T) :
    List (List T) × Nat :=
  let g2 := foldLoop f (rows_len g) ((List.range row).reverse) (row + 1) g
  let g3 := truncate_rows g2 row
  (g3, rows_len g3)

/-- The `Index` implementation: panics when `idx >= self.grid.len()`.  The
error payload records the two holes of the panic message
`index {:?} out of bounds. Grid has {:?} rows.` in source argument order:
the source passes `(self.grid.len(), idx)`. -/
def index (g : List (List T)) (idx : Nat) : Except (Nat × Nat) (List T) :=
  if idx ≥ g.length then Except.error (g.length, idx)
  else Except.ok (g.getD idx [])

/-- Spec-side candidate: a coordinate expressed with integer offsets is kept
exactly when it is in bounds, and then converted back to `Nat` form.
Modelled from the spec wording of the neighbor ordering (each of the eight
directional candidates omitted if out of bounds). -/
def candOpt (g : List (List T)) (p : Int × Int) : List (Nat × Nat) :=
  if 0 ≤ p.1 ∧ p.1 < (rows_len g : Int) ∧ 0 ≤ p.2 ∧ p.2 < (cols_len g : Int) then
    [(p.1.toNat, p.2.toNat)]
  else []

/-- Spec-side neighbor list, modelled from the spec's words: the in-bounds
members of `[left, right, up, down, up-left, up-right, down-left,
down-right]`, in exactly that order. -/
def neighborsSpec (g : List (List T)) (row col : Nat) : List (Nat × Nat) :=
  candOpt g ((row : Int), (col : Int) - 1) ++
  candOpt g ((row : Int), (col : Int) + 1) ++
  candOpt g ((row : Int) - 1, (col : Int)) ++
  candOpt g ((row : Int) + 1, (col : Int)) ++
  candOpt g ((row : Int) - 1, (col : Int) - 1) ++
  candOpt g ((row : Int) - 1, (col : Int) + 1) ++
  candOpt g ((row : Int) + 1, (col : Int) - 1) ++
  candOpt g ((row : Int) + 1, (col : Int) + 1)

/-! Helper lemmas about list updates, used to turn the imperative write
loops into closed forms. -/

theorem getD_set_self {α : Type} {l : List α} {i : Nat} {v : α} (d : α)
    (h : i < l.length) : (l.set i v).getD i d = v := by
  rw [List.getD_eq_getElem _ _ (by simpa using h)]
  exact List.getElem_set_self (by simpa using h)

theorem getD_set_ne {α : Type} {l : List α} {i j : Nat} {v : α} (d : α)
    (h : i ≠ j) : (l.set i v).getD j d = l.getD j d := by
  by_cases hj : j < l.length
  · rw [List.getD_eq_getElem _ _ (by simpa using hj), List.getD_eq_getElem _ _ hj]
    exact List.getElem_set_ne h _
  · rw [List.getD_eq_default _ _ (by simpa using Nat.le_of_not_lt hj),
      List.getD_eq_default _ _ (Nat.le_of_not_lt hj)]

theorem set_getD_self {α : Type} {l : List α} {i : Nat} (d : α) (h : i < l.length) :
    l.set i (l.getD i d) = l := by
  apply List.ext_getElem (by simp)
  intro n h1 h2
  by_cases hn : n = i
  · subst hn
    rw [List.getElem_set_self, List.getD_eq_getElem _ _ h2]
  · rw [List.getElem_set_ne (fun hh => hn hh.symm)]

theorem getD_drop {α : Type} (l : List α) (d : α) (m t : Nat) (h : m ≤ t) :
    (l.drop m).getD (t - m) d = l.getD t d := by
  rw [List.getD_eq_getElem?_getD, List.getD_eq_getElem?_getD, List.getElem?_drop]
  have ht : m + (t - m) = t := by omega
  rw [ht]

/-- Running `for j in 0..m { l[j] = G l j }` fills the first `m` positions
with `G` evaluated at the original list, provided `G _ j` only looks at
positions at or past `j` (which have not yet been written). -/
theorem foldl_set_range_go {α : Type} (d : α) (G : List α → Nat → α)
    (hG : ∀ (x y : List α) (j : Nat), x.length = y.length →
      (∀ t, j ≤ t → x.getD t d = y.getD t d) → G x j = G y j) :
    ∀ (m : Nat) (l : List α), m ≤ l.length →
      (List.range m).foldl (fun a j => a.set j (G a j)) l =
        (List.range m).map (fun j => G l j) ++ l.drop m := by
  intro m
  induction m with
  | zero => intro l _; simp
  | succ m ih =>
      intro l hm
      rw [List.range_succ, List.foldl_append, List.map_append]
      rw [ih l (by omega)]
      simp only [List.foldl_cons, List.foldl_nil, List.map_cons, List.map_nil]
      have hlen : ((List.range m).map (fun j => G l j) ++ l.drop m).length = l.length := by
        simp
        omega
      have hGeq : G ((List.range m).map (fun j => G l j) ++ l.drop m) m = G l m := by
        apply hG _ _ _ hlen
        intro t ht
        rw [List.getD_append_right _ _ _ _ (by simp; omega)]
        simp only [List.length_map, List.length_range]
        exact getD_drop l d m t ht
      rw [hGeq]
      rw [List.set_append]
      simp only [List.length_map, List.length_range]
      rw [if_neg (by omega)]
      rw [Nat.sub_self]
      rw [List.drop_eq_getElem_cons (show m < l.length by omega)]
      rw [List.set_cons_zero]
      simp [List.append_assoc]

/-- A loop that repeatedly writes into row `i` of a grid equals a single
row update with the corresponding loop on that row. -/
theorem foldl_setCell_fixed {T : Type} (i : Nat) (V : List (List T) → Nat → T) :
    ∀ (js : List Nat) (a : List (List T)), i < a.length →
      js.foldl (fun acc j => setCell acc i j (V acc j)) a =
        a.set i (js.foldl (fun r j => r.set j (V (a.set i r) j)) (a.getD i [])) := by
  intro js
  induction js with
  | nil =>
      intro a ha
      simp only [List.foldl_nil]
      rw [set_getD_self _ ha]
  | cons j rest ih =>
      intro a ha
      simp only [List.foldl_cons]
      show rest.foldl _ (a.set i ((a.getD i []).set j (V a j))) = _
      rw [ih _ (by simpa using ha)]
      rw [getD_set_self [] (by simpa using ha)]
      rw [List.set_set]
      have hfun :
          (fun (r : List T) (j' : Nat) =>
              r.set j' (V ((a.set i ((a.getD i []).set j (V a j))).set i r) j')) =
            (fun (r : List T) (j' : Nat) => r.set j' (V (a.set i r) j')) := by
        funext r j'
        rw [List.set_set]
      rw [hfun]
      have hinit : (a.getD i []).set j (V (a.set i (a.getD i [])) j) =
          (a.getD i []).set j (V a j) := by
        rw [set_getD_self [] ha]
      rw [hinit]

/-- Closed form of the inner write loop of `transpose`: it replaces the
first `m` cells of row `i` with the written values. -/
theorem writeRowVals_eq {T : Type} (a : List (List T)) (i : Nat) (vals : Nat → T)
    (m : Nat) (hi : i < a.length) (hm : m ≤ (a.getD i []).length) :
    writeRowVals a i vals m =
      a.set i ((List.range m).map vals ++ (a.getD i []).drop m) := by
  unfold writeRowVals
  rw [foldl_setCell_fixed i (fun _ j => vals j) (List.range m) a hi]
  rw [foldl_set_range_go (vals 0) (fun _ j => vals j) (fun _ _ _ _ _ => rfl) m
    (a.getD i []) hm]

/-- Closed form of the inner column loop of `fold_at_row`: row `ny` becomes
the pointwise combination of its first `m` cells with row `y`. -/
theorem combineRow_eq {T : Type} [Inhabited T] (a : List (List T)) (ny y m : Nat)
    (f : T → T → T) (hi : ny < a.length) (hne : ny ≠ y)
    (hm : m ≤ (a.getD ny []).length) :
    combineRow a ny y m f =
      a.set ny ((List.range m).map
        (fun x => f ((a.getD ny []).getD x default) ((a.getD y []).getD x default))
        ++ (a.getD ny []).drop m) := by
  unfold combineRow
  rw [foldl_setCell_fixed ny
    (fun acc x => f ((acc.getD ny []).getD x default) ((acc.getD y []).getD x default))
    (List.range m) a hi]
  have hfun :
      (fun (r : List T) (x : Nat) =>
          r.set x (f (((a.set ny r).getD ny []).getD x default)
            (((a.set ny r).getD y []).getD x default))) =
        (fun (r : List T) (x : Nat) =>
          r.set x (f (r.getD x default) ((a.getD y []).getD x default))) := by
    funext r x
    rw [getD_set_self [] (by simpa using hi), getD_set_ne [] hne]
  rw [hfun]
  rw [foldl_set_range_go default
    (fun r x => f (r.getD x default) ((a.getD y []).getD x default))
    (by
      intro u v j hlen hagree
      simp only [hagree j (Nat.le_refl j)])
    m (a.getD ny []) hm]

/-- Closed form of a double write loop over the whole grid: when every row
has length `m`, writing rows `0..n` replaces them with the written values. -/
theorem writeGridVals_go {T : Type} (vals : Nat → Nat → T) (m : Nat) :
    ∀ (n : Nat) (a : List (List T)), n ≤ a.length →
      (∀ i, i < a.length → (a.getD i []).length = m) →
      (List.range n).foldl (fun acc i => writeRowVals acc i (vals i) m) a =
        (List.range n).map (fun i => (List.range m).map (vals i)) ++ a.drop n := by
  intro n
  induction n with
  | zero => intro a _ _; simp
  | succ n ih =>
      intro a hn hrows
      rw [List.range_succ, List.foldl_append, List.map_append]
      rw [ih a (by omega) hrows]
      simp only [List.foldl_cons, List.foldl_nil, List.map_cons, List.map_nil]
      set P := (List.range n).map (fun i => (List.range m).map (vals i)) ++ a.drop n
        with hP
      have hPlen : P.length = a.length := by
        rw [hP]
        simp
        omega
      have hProw : P.getD n [] = a.getD n [] := by
        rw [hP]
        rw [List.getD_append_right _ _ _ _ (by simp)]
        simp only [List.length_map, List.length_range]
        exact getD_drop a ([] : List T) n n (Nat.le_refl n)
      have hle : m ≤ (P.getD n []).length := by
        rw [hProw]
        exact le_of_eq (hrows n (by omega)).symm
      rw [writeRowVals_eq P n (vals n) m (by omega) hle]
      rw [hProw]
      rw [show (a.getD n []).drop m = [] from by
        rw [← hrows n (by omega)]
        exact List.drop_length _]
      rw [List.append_nil]
      rw [hP]
      rw [List.set_append]
      simp only [List.length_map, List.length_range]
      rw [if_neg (by omega)]
      rw [Nat.sub_self]
      rw [List.drop_eq_getElem_cons (show n < a.length by omega)]
      rw [List.set_cons_zero]
      simp [List.append_assoc]

/-- Shape facts about `init`. -/
theorem init_length (rows cols : Nat) (v : T) : (init rows cols v).length = rows := by
  simp [init]

theorem init_getD (rows cols : Nat) (v : T) {i : Nat} (h : i < rows) :
    (init rows cols v).getD i [] = List.replicate cols v := by
  unfold init
  rw [List.getD_eq_getElem _ _ (by simpa using h)]
  exact List.getElem_replicate _ _

/-- Closed form of `transpose`: a `cols_len × rows_len` grid of the mirrored
cells.  Holds with no side conditions because the seed grid built by `init`
already has the right shape. -/
theorem transpose_eq {T : Type} [Inhabited T] (g : List (List T)) :
    transpose g = (List.range (cols_len g)).map
      (fun x => (List.range (rows_len g)).map (fun y => cell g y x)) := by
  unfold transpose writeGridVals
  rw [writeGridVals_go (fun x y => cell g y x) (rows_len g) (cols_len g)
    (init (cols_len g) (rows_len g) (cell g 0 0))
    (le_of_eq (init_length _ _ _).symm)
    (by
      intro i hi
      rw [init_getD _ _ _ (by simpa [init_length] using hi)]
      simp)]
  rw [List.drop_eq_nil_of_le (le_of_eq (init_length _ _ _))]
  simp

/-- Reading a cell of the intermediate `temp` grid of `rotate`. -/
theorem rotate_temp_cell {T : Type} [Inhabited T] (g : List (List T)) {n i j : Nat}
    (hi : i < n) (hj : j < n) :
    cell ((List.range n).map
      (fun column => ((List.range n).reverse).map (fun row => cell g row column)))
      i j = cell g (n - 1 - j) i := by
  show ((((List.range n).map
      (fun column => ((List.range n).reverse).map (fun row => cell g row column))).getD
        i []).getD j default) = cell g (n - 1 - j) i
  have h1 : ((List.range n).map
      (fun column => ((List.range n).reverse).map (fun row => cell g row column))).getD
        i [] = ((List.range n).reverse).map (fun row => cell g row i) := by
    rw [List.getD_eq_getElem _ _ (by simpa using hi)]
    rw [List.getElem_map]
    rw [List.getElem_range]
  rw [h1]
  rw [List.getD_eq_getElem _ _ (by simpa using hj)]
  rw [List.getElem_map]
  rw [List.getElem_reverse]
  simp only [List.length_range, List.getElem_range]

/-- Closed form of `rotate` on a grid whose rows all have length
`rows_len`: every cell `(i, j)` of the result is the old cell
`(n - 1 - j, i)`. -/
theorem rotate_eq {T : Type} [Inhabited T] (g : List (List T))
    (hsq : ∀ i, i < g.length → (g.getD i []).length = g.length) :
    rotate g = (List.range g.length).map
      (fun i => (List.range g.length).map
        (fun j => cell g (g.length - 1 - j) i)) := by
  unfold rotate
  simp only [rows_len]
  unfold writeGridVals
  rw [writeGridVals_go _ g.length g.length g (Nat.le_refl _) hsq]
  rw [List.drop_length, List.append_nil]
  apply List.map_congr_left
  intro i hmem
  have hi : i < g.length := List.mem_range.mp hmem
  apply List.map_congr_left
  intro j hmem2
  have hj : j < g.length := List.mem_range.mp hmem2
  exact rotate_temp_cell g hi hj

theorem cols_len_eq_getD (g : List (List T)) (h : g ≠ []) :
    cols_len g = (g.getD 0 []).length := by
  cases g with
  | nil => exact absurd rfl h
  | cons r t => rfl

/-- Reading a cell of a grid given as a double `map` over ranges. -/
theorem cell_map_range {T : Type} [Inhabited T] {n m : Nat} (F : Nat → Nat → T)
    {i j : Nat} (hi : i < n) (hj : j < m) :
    cell ((List.range n).map (fun i => (List.range m).map (F i))) i j = F i j := by
  show (((List.range n).map (fun i => (List.range m).map (F i))).getD i []).getD
      j default = F i j
  have h1 : ((List.range n).map (fun i => (List.range m).map (F i))).getD i [] =
      (List.range m).map (F i) := by
    rw [List.getD_eq_getElem _ _ (by simpa using hi)]
    rw [List.getElem_map]
    rw [List.getElem_range]
  rw [h1]
  rw [List.getD_eq_getElem _ _ (by simpa using hj)]
  rw [List.getElem_map]
  rw [List.getElem_range]

theorem getElem_eq_cell {T : Type} [Inhabited T] (g : List (List T)) {i j : Nat}
    (hi : i < g.length) (hj : j < (g.getD i []).length) :
    cell g i j = (g.getD i []).getD j default := rfl

/-- Mapping over a reversed range is mapping the reflected index. -/
theorem reverse_range_map {α : Type} (n : Nat) (F : Nat → α) :
    ((List.range n).reverse).map F = (List.range n).map (fun j => F (n - 1 - j)) := by
  apply List.ext_getElem (by simp)
  intro k h1 h2
  simp [List.getElem_map, List.getElem_reverse, List.getElem_range]

theorem rotate_cell {T : Type} [Inhabited T] (g : List (List T))
    (hsq : ∀ i, i < g.length → (g.getD i []).length = g.length)
    {a b : Nat} (ha : a < g.length) (hb : b < g.length) :
    cell (rotate g) a b = cell g (g.length - 1 - b) a := by
  rw [rotate_eq g hsq]
  exact cell_map_range _ ha hb

theorem rotate_shape {T : Type} [Inhabited T] (g : List (List T))
    (hsq : ∀ i, i < g.length → (g.getD i []).length = g.length) :
    (rotate g).length = g.length ∧
    ∀ i, i < (rotate g).length → ((rotate g).getD i []).length = (rotate g).length := by
  rw [rotate_eq g hsq]
  refine ⟨by simp, ?_⟩
  intro i hi
  have hi' : i < g.length := by simpa using hi
  rw [List.getD_eq_getElem _ _ (by simpa using hi')]
  simp [List.getElem_map, List.getElem_range]

/-- C1: for a non-empty rectangular grid, `transpose` swaps the dimensions
and mirrors every cell: `result[c][r] = original[r][c]` for all in-bounds
`(r, c)` of the original. -/
theorem transpose_spec {T : Type} [Inhabited T] (g : List (List T))
    (hrect : ∀ r ∈ g, r.length = cols_len g)
    (h1 : 0 < rows_len g) (h2 : 0 < cols_len g) :
    rows_len (transpose g) = cols_len g ∧
    cols_len (transpose g) = rows_len g ∧
    ∀ r c, r < rows_len g → c < cols_len g → cell (transpose g) c r = cell g r c := by
  rw [transpose_eq g]
  refine ⟨by simp [rows_len], ?_, ?_⟩
  · rw [cols_len_eq_getD _ (by
      intro hnil
      have hlen := congrArg List.length hnil
      simp at hlen
      omega)]
    rw [List.getD_eq_getElem _ _ (by simpa using h2)]
    simp [List.getElem_map, List.getElem_range, rows_len]
  · intro r c hr hc
    exact cell_map_range _ hc hr

/-- Witness for C1 at the 3x2 grid `[[1,2],[3,4],[5,6]]`. -/
theorem transpose_spec_witness :
    Grid.rows_len (Grid.transpose [[1, 2], [3, 4], [5, 6]]) = 2 :=
  (transpose_spec [[1, 2], [3, 4], [5, 6]] (by decide) (by decide) (by decide)).1

/-- C4 counterexample: `init 0 5 v` has `cols_len = 0`, not 5, because
`cols_len` reads the length of row 0 and there is no row. -/
theorem init_cols_len_counterexample :
    Grid.cols_len (Grid.init 0 5 (0 : Nat)) ≠ 5 := by decide

/-- C4 (amended): `init rows cols v` has `rows_len = rows`; it has
`cols_len = cols` whenever `rows > 0` (an empty grid reports `cols_len = 0`
regardless of `cols`); and every in-bounds cell holds `v`. -/
theorem init_spec {T : Type} [Inhabited T] (rows cols : Nat) (v : T) :
    rows_len (init rows cols v) = rows ∧
    (0 < rows → cols_len (init rows cols v) = cols) ∧
    ∀ r c, r < rows → c < cols → cell (init rows cols v) r c = v := by
  refine ⟨init_length _ _ _, ?_, ?_⟩
  · intro hrows
    rw [cols_len_eq_getD _ (by
      intro hnil
      have := init_length rows cols v
      rw [hnil] at this
      simp at this
      omega)]
    rw [init_getD _ _ _ hrows]
    simp
  · intro r c hr hc
    show (((init rows cols v).getD r []).getD c default) = v
    rw [init_getD _ _ _ hr]
    rw [List.getD_eq_getElem _ _ (by simpa using hc)]
    exact List.getElem_replicate _ _

/-- Witness for C4's amended theorem at `init 3 4 7`. -/
theorem init_spec_witness : Grid.cols_len (Grid.init 3 4 (7 : Nat)) = 4 :=
  (init_spec 3 4 (7 : Nat)).2.1 (by decide)

/-- C6: every adjacency query returns the empty list when the input
coordinate itself is out of bounds. -/
theorem adjacency_oob_empty {T : Type} (g : List (List T)) (row col : Nat)
    (h : row ≥ rows_len g ∨ col ≥ cols_len g) :
    row_left_coords g row col = [] ∧ row_right_coords g row col = [] ∧
    col_up_coords g row col = [] ∧ col_down_coords g row col = [] ∧
    row_neighbors g row col = [] ∧ col_neighbors g row col = [] ∧
    diag_neighbors g row col = [] ∧ neighbors g row col = [] := by
  refine ⟨?_, ?_, ?_, ?_, ?_, ?_, ?_, ?_⟩ <;>
    simp [row_left_coords, row_right_coords, col_up_coords, col_down_coords,
      row_neighbors, col_neighbors, diag_neighbors, neighbors, h]

/-- Witness for C6 on a 2x2 grid with an out-of-bounds row. -/
theorem adjacency_oob_empty_witness :
    Grid.neighbors (Grid.init 2 2 (0 : Nat)) 2 0 = [] :=
  (adjacency_oob_empty (Grid.init 2 2 (0 : Nat)) 2 0 (by decide)).2.2.2.2.2.2.2

/-- C8: `flip_y` reverses every row in place and is an involution. -/
theorem flip_y_spec {T : Type} (g : List (List T)) :
    flip_y (flip_y g) = g ∧
    ∀ i, i < rows_len g → (flip_y g).getD i [] = (g.getD i []).reverse := by
  constructor
  · unfold flip_y
    rw [List.map_map]
    have : (List.reverse ∘ List.reverse : List T → List T) = id := by
      funext l
      simp
    rw [this, List.map_id]
  · intro i hi
    unfold flip_y
    rw [List.getD_eq_getElem _ _ (by simpa [rows_len] using hi),
      List.getD_eq_getElem _ _ (by simpa [rows_len] using hi)]
    rw [List.getElem_map]

/-- Witness for C8 at a concrete 2x3 grid. -/
theorem flip_y_spec_witness :
    Grid.flip_y (Grid.flip_y [[1, 2, 3], [4, 5, 6]]) = [[1, 2, 3], [4, 5, 6]] :=
  (flip_y_spec [[1, 2, 3], [4, 5, 6]]).1

/-- C7: on a square rectangular grid, `rotate` is a clockwise quarter turn
(row `c` of the result is column `c` of the original read bottom-up), and
four applications restore the grid. -/
theorem rotate_spec {T : Type} [Inhabited T] (g : List (List T))
    (hrect : ∀ r ∈ g, r.length = cols_len g)
    (hsquare : rows_len g = cols_len g) :
    rotate (rotate (rotate (rotate g))) = g ∧
    ∀ c, c < rows_len g →
      (rotate g).getD c [] =
        ((List.range (rows_len g)).reverse).map (fun r => cell g r c) := by
  have hsq : ∀ i, i < g.length → (g.getD i []).length = g.length := by
    intro i hi
    rw [List.getD_eq_getElem _ _ hi]
    rw [hrect _ (List.getElem_mem hi), ← hsquare]
    rfl
  set n := g.length with hn
  have shape1 := rotate_shape g hsq
  have len1 : (rotate g).length = n := shape1.1
  have hsq1 : ∀ i, i < (rotate g).length → ((rotate g).getD i []).length =
      (rotate g).length := shape1.2
  have shape2 := rotate_shape (rotate g) hsq1
  have len2 : (rotate (rotate g)).length = n := by rw [shape2.1, len1]
  have hsq2 := shape2.2
  have shape3 := rotate_shape (rotate (rotate g)) hsq2
  have len3 : (rotate (rotate (rotate g))).length = n := by rw [shape3.1, len2]
  have hsq3 := shape3.2
  have shape4 := rotate_shape (rotate (rotate (rotate g))) hsq3
  have len4 : (rotate (rotate (rotate (rotate g)))).length = n := by
    rw [shape4.1, len3]
  constructor
  · apply List.ext_getElem (by rw [len4])
    intro i hI4 hIg
    have hi : i < n := by rw [← len4]; exact hI4
    apply List.ext_getElem
    · have e1 : ((rotate (rotate (rotate (rotate g)))).getD i []).length = n := by
        rw [shape4.2 i hI4, len4]
      have e2 : (g.getD i []).length = n := hsq i hIg
      rw [List.getD_eq_getElem _ _ hI4] at e1
      rw [List.getD_eq_getElem _ _ hIg] at e2
      rw [e1, e2]
    · intro j hJ4 hJg
      have hj : j < n := by
        have e2 : (g.getD i []).length = n := hsq i hIg
        rw [List.getD_eq_getElem _ _ hIg] at e2
        rw [e2] at hJg
        exact hJg
      have c4 : cell (rotate (rotate (rotate (rotate g)))) i j =
          cell (rotate (rotate (rotate g))) (n - 1 - j) i := by
        have := rotate_cell (rotate (rotate (rotate g))) hsq3
          (a := i) (b := j) (by rw [len3]; exact hi) (by rw [len3]; exact hj)
        rw [len3] at this
        exact this
      have c3 : cell (rotate (rotate (rotate g))) (n - 1 - j) i =
          cell (rotate (rotate g)) (n - 1 - i) (n - 1 - j) := by
        have := rotate_cell (rotate (rotate g)) hsq2
          (a := n - 1 - j) (b := i) (by rw [len2]; omega) (by rw [len2]; exact hi)
        rw [len2] at this
        exact this
      have c2 : cell (rotate (rotate g)) (n - 1 - i) (n - 1 - j) =
          cell (rotate g) j (n - 1 - i) := by
        have := rotate_cell (rotate g) hsq1
          (a := n - 1 - i) (b := n - 1 - j) (by rw [len1]; omega) (by rw [len1]; omega)
        rw [len1] at this
        rw [this]
        have harith : n - 1 - (n - 1 - j) = j := by omega
        rw [harith]
      have c1 : cell (rotate g) j (n - 1 - i) = cell g i j := by
        have := rotate_cell g hsq (a := j) (b := n - 1 - i) hj (by omega)
        rw [this]
        have harith : n - 1 - (n - 1 - i) = i := by omega
        rw [harith]
      have hcell : cell (rotate (rotate (rotate (rotate g)))) i j = cell g i j := by
        rw [c4, c3, c2, c1]
      show (rotate (rotate (rotate (rotate g))))[i][j] = g[i][j]
      have lhs_eq : (rotate (rotate (rotate (rotate g))))[i][j] =
          cell (rotate (rotate (rotate (rotate g)))) i j := by
        unfold cell
        rw [List.getD_eq_getElem _ _ hI4]
        rw [List.getD_eq_getElem _ _ hJ4]
      have rhs_eq : g[i][j] = cell g i j := by
        unfold cell
        rw [List.getD_eq_getElem _ _ hIg]
        rw [List.getD_eq_getElem _ _ hJg]
      rw [lhs_eq, rhs_eq, hcell]
  · intro c hc
    have hc' : c < n := hc
    rw [rotate_eq g hsq]
    rw [reverse_range_map]
    have hrow : ((List.range n).map
        (fun i => (List.range n).map (fun j => cell g (n - 1 - j) i))).getD c [] =
        (List.range n).map (fun j => cell g (n - 1 - j) c) := by
      rw [List.getD_eq_getElem _ _ (by simpa using hc')]
      rw [List.getElem_map]
      rw [List.getElem_range]
    exact hrow

/-- Witness for C7 at the square grid `[[1,2],[3,4]]`. -/
theorem rotate_spec_witness :
    Grid.rotate (Grid.rotate (Grid.rotate (Grid.rotate [[1, 2], [3, 4]]))) =
      [[1, 2], [3, 4]] :=
  (rotate_spec [[1, 2], [3, 4]] (by decide) (by decide)).1

/-- C9 (code bug): on a 2-row grid, indexing with 5 faults, and the panic
message holes receive `(rows_len, idx) = (2, 5)`: the row count is printed
in the "index" role and the attempted index in the "rows" role, the
opposite of what the message text (and the spec) say. -/
theorem index_panic_args_swapped :
    Grid.index ([[0], [0]] : List (List Nat)) 5 = Except.error (2, 5) := rfl

theorem pair_list_eq {a b x y : Nat} (h1 : a = x) (h2 : b = y) :
    [(a, b)] = [(x, y)] := by rw [h1, h2]

/-- For an in-bounds centre, `row_neighbors` is the left-then-right
candidate pair, each filtered by bounds. -/
theorem row_neighbors_eq_spec (g : List (List T)) (row col : Nat)
    (hr : row < rows_len g) (hc : col < cols_len g) :
    row_neighbors g row col =
      candOpt g ((row : Int), (col : Int) - 1) ++
      candOpt g ((row : Int), (col : Int) + 1) := by
  unfold row_neighbors candOpt
  split_ifs <;>
    first
      | rfl
      | omega
      | (exfalso; omega)
      | (simp only [List.cons.injEq, Prod.mk.injEq, List.nil_append,
          List.append_nil, List.singleton_append, List.cons_append, and_true,
          true_and]
         omega)

/-- For an in-bounds centre, `col_neighbors` is the up-then-down candidate
pair, each filtered by bounds. -/
theorem col_neighbors_eq_spec (g : List (List T)) (row col : Nat)
    (hr : row < rows_len g) (hc : col < cols_len g) :
    col_neighbors g row col =
      candOpt g ((row : Int) - 1, (col : Int)) ++
      candOpt g ((row : Int) + 1, (col : Int)) := by
  unfold col_neighbors candOpt
  split_ifs <;>
    first
      | rfl
      | omega
      | (exfalso; omega)
      | (simp only [List.cons.injEq, Prod.mk.injEq, List.nil_append,
          List.append_nil, List.singleton_append, List.cons_append, and_true,
          true_and]
         omega)

/-- For an in-bounds centre, `diag_neighbors` is the four diagonal
candidates in order up-left, up-right, down-left, down-right, each
filtered by bounds. -/
theorem diag_neighbors_eq_spec (g : List (List T)) (row col : Nat)
    (hr : row < rows_len g) (hc : col < cols_len g) :
    diag_neighbors g row col =
      candOpt g ((row : Int) - 1, (col : Int) - 1) ++
      candOpt g ((row : Int) - 1, (col : Int) + 1) ++
      candOpt g ((row : Int) + 1, (col : Int) - 1) ++
      candOpt g ((row : Int) + 1, (col : Int) + 1) := by
  unfold diag_neighbors candOpt
  split_ifs <;>
    first
      | rfl
      | omega
      | (exfalso; omega)
      | (simp only [List.cons.injEq, Prod.mk.injEq, List.nil_append,
          List.append_nil, List.singleton_append, List.cons_append, and_true,
          true_and]
         omega)

/-- C3 counterexample: at the out-of-bounds centre `(3, 0)` of a 3x3 grid
the code returns the empty list, while the in-bounds members of the eight
candidate positions are `[(2,0), (2,1)]`, so the candidate-list description
of the claim fails at out-of-bounds centres. -/
theorem neighbors_oob_counterexample :
    Grid.neighbors (Grid.init 3 3 (0 : Nat)) 3 0 ≠
      Grid.neighborsSpec (Grid.init 3 3 (0 : Nat)) 3 0 := by decide

/-- C3 (amended): `neighbors` always equals `row_neighbors` then
`col_neighbors` then `diag_neighbors`; for an in-bounds centre this is
exactly the in-bounds members of `[left, right, up, down, up-left,
up-right, down-left, down-right]` in that order; and on the 3x3 example
grid `neighbors 1 0 = [(1,1), (0,0), (2,0), (0,1), (2,1)]`.  At an
out-of-bounds centre the result is instead empty. -/
theorem neighbors_spec_inbounds {T : Type} :
    (∀ (g : List (List T)) (row col : Nat),
      neighbors g row col =
        row_neighbors g row col ++ col_neighbors g row col ++
          diag_neighbors g row col) ∧
    (∀ (g : List (List T)) (row col : Nat),
      row < rows_len g → col < cols_len g →
      neighbors g row col = neighborsSpec g row col) ∧
    Grid.neighbors [[0, 1, 2], [4, 5, 6], [7, 8, 9]] 1 0 =
      [(1, 1), (0, 0), (2, 0), (0, 1), (2, 1)] := by
  refine ⟨fun g row col => rfl, ?_, by decide⟩
  intro g row col hr hc
  unfold neighbors neighborsSpec
  rw [row_neighbors_eq_spec g row col hr hc, col_neighbors_eq_spec g row col hr hc,
    diag_neighbors_eq_spec g row col hr hc]
  simp [List.append_assoc]

/-- Witness for C3's amended theorem at the in-bounds centre `(1, 1)` of a
3x3 grid. -/
theorem neighbors_spec_inbounds_witness :
    Grid.neighbors (Grid.init 3 3 (0 : Nat)) 1 1 =
      Grid.neighborsSpec (Grid.init 3 3 (0 : Nat)) 1 1 :=
  (neighbors_spec_inbounds (T := Nat)).2.1 (Grid.init 3 3 (0 : Nat)) 1 1
    (by decide) (by decide)

/-- C5: `from_2d` fails with `UnequalColumnsError` exactly when two rows of
distinct lengths occur among the input rows, and succeeds with the rows
unchanged whenever all rows agree in length. -/
theorem from_2d_spec {T : Type} (data : List (List T)) :
    (from_2d data = Except.error UnequalColumnsError.mk ↔
      ∃ r1 ∈ data, ∃ r2 ∈ data, r1.length ≠ r2.length) ∧
    ((∀ r1 ∈ data, ∀ r2 ∈ data, r1.length = r2.length) →
      from_2d data = Except.ok data) := by
  have hmem : ∀ a : Nat,
      a ∈ ((data.map List.length).insertionSort (· ≤ ·)).dedup ↔
        a ∈ data.map List.length := by
    intro a
    rw [List.mem_dedup]
    exact (List.perm_insertionSort _ _).mem_iff
  have hnodup := List.nodup_dedup ((data.map List.length).insertionSort (· ≤ ·))
  have hkey : ((data.map List.length).insertionSort (· ≤ ·)).dedup.length > 1 ↔
      ∃ r1 ∈ data, ∃ r2 ∈ data, r1.length ≠ r2.length := by
    constructor
    · intro hlen
      match hcc : ((data.map List.length).insertionSort (· ≤ ·)).dedup with
      | [] => rw [hcc] at hlen; simp at hlen
      | [x] => rw [hcc] at hlen; simp at hlen
      | x :: y :: rest =>
          have hx : x ∈ data.map List.length := (hmem x).mp (by rw [hcc]; simp)
          have hy : y ∈ data.map List.length := (hmem y).mp (by rw [hcc]; simp)
          have hxy : x ≠ y := by
            rw [hcc] at hnodup
            intro hxyeq
            exact (List.nodup_cons.mp hnodup).1 (by rw [hxyeq]; simp)
          obtain ⟨r1, hr1, hr1len⟩ := List.mem_map.mp hx
          obtain ⟨r2, hr2, hr2len⟩ := List.mem_map.mp hy
          exact ⟨r1, hr1, r2, hr2, by rw [hr1len, hr2len]; exact hxy⟩
    · rintro ⟨r1, hr1, r2, hr2, hne⟩
      have ha : r1.length ∈ ((data.map List.length).insertionSort (· ≤ ·)).dedup :=
        (hmem _).mpr (List.mem_map_of_mem _ hr1)
      have hb : r2.length ∈ ((data.map List.length).insertionSort (· ≤ ·)).dedup :=
        (hmem _).mpr (List.mem_map_of_mem _ hr2)
      by_contra hlen
      match hcc : ((data.map List.length).insertionSort (· ≤ ·)).dedup with
      | [] => rw [hcc] at ha; simp at ha
      | [x] =>
          rw [hcc] at ha hb
          simp at ha hb
          exact hne (ha.trans hb.symm)
      | x :: y :: rest =>
          rw [hcc] at hlen
          simp at hlen
  constructor
  · unfold from_2d
    by_cases h : ((data.map List.length).insertionSort (· ≤ ·)).dedup.length > 1
    · rw [if_pos h]
      exact ⟨fun _ => hkey.mp h, fun _ => rfl⟩
    · rw [if_neg h]
      constructor
      · intro hok
        exact absurd hok (by simp)
      · intro hex
        exact absurd (hkey.mpr hex) h
  · intro hall
    unfold from_2d
    rw [if_neg (by
      intro hgt
      obtain ⟨r1, hr1, r2, hr2, hne⟩ := hkey.mp hgt
      exact hne (hall r1 hr1 r2 hr2))]

/-- Witness for C5 on a concrete rectangular input. -/
theorem from_2d_spec_witness :
    Grid.from_2d [[1, 2], [3, 4]] = Except.ok [[1, 2], [3, 4]] :=
  (from_2d_spec [[1, 2], [3, 4]]).2 (by decide)

theorem foldLoop_nil {T : Type} [Inhabited T] (f : T → T → T) (stop y : Nat)
    (g : List (List T)) : foldLoop f stop [] y g = g := by
  show (if y < stop then g else g) = g
  exact ite_self g

theorem foldLoop_cons {T : Type} [Inhabited T] (f : T → T → T) (stop ny y : Nat)
    (rest : List Nat) (g : List (List T)) :
    foldLoop f stop (ny :: rest) y g =
      if y < stop then
        foldLoop f stop rest (y + 1) (combineRow g ny y (cols_len g) f)
      else g := rfl

theorem cols_len_rect {T : Type} (g : List (List T)) (c : Nat) (hne : g ≠ [])
    (hrect : ∀ i, i < g.length → (g.getD i []).length = c) : cols_len g = c := by
  rw [cols_len_eq_getD g hne]
  exact hrect 0 (List.length_pos.mpr hne)

/-- Characterisation of the pairing loop of `fold_at_row`: running it with
targets `(0..k).rev()` against source rows `y, y+1, ...` (bounded by
`stop`) combines row `i` with row `y + (k - 1 - i)` for the topmost
`min k (stop - y)` targets `k-1, k-2, ...` and leaves every other row
untouched. -/
theorem foldLoop_spec {T : Type} [Inhabited T] (f : T → T → T) (c : Nat) :
    ∀ (k y stop : Nat) (g : List (List T)), k ≤ y → stop ≤ g.length →
      (∀ i, i < g.length → (g.getD i []).length = c) →
      (foldLoop f stop ((List.range k).reverse) y g).length = g.length ∧
      (∀ i, i < g.length →
        ((foldLoop f stop ((List.range k).reverse) y g).getD i []).length = c) ∧
      (∀ i, i < g.length →
        (foldLoop f stop ((List.range k).reverse) y g).getD i [] =
          if i < k ∧ k ≤ i + min k (stop - y) then
            (List.range c).map
              (fun x => f (cell g i x) (cell g (y + (k - 1 - i)) x))
          else g.getD i []) := by
  intro k
  induction k with
  | zero =>
      intro y stop g hky hstop hrect
      rw [show (List.range 0).reverse = ([] : List Nat) from rfl]
      rw [foldLoop_nil]
      refine ⟨rfl, fun i hi => hrect i hi, ?_⟩
      intro i hi
      rw [if_neg (by omega)]
  | succ k ih =>
      intro y stop g hky hstop hrect
      have hrev : (List.range (k + 1)).reverse = k :: (List.range k).reverse := by
        rw [List.range_succ, List.reverse_append]
        rfl
      rw [hrev, foldLoop_cons]
      by_cases hy : y < stop
      · rw [if_pos hy]
        have hgne : g ≠ [] := by
          intro hnil
          rw [hnil] at hstop
          simp at hstop
          omega
        have hcols : cols_len g = c := cols_len_rect g c hgne hrect
        have hkg : k < g.length := by omega
        have hyg : y < g.length := by omega
        have hrowk : (g.getD k []).length = c := hrect k hkg
        rw [hcols]
        rw [combineRow_eq g k y c f hkg (by omega) (le_of_eq hrowk.symm)]
        rw [show (g.getD k []).drop c = [] from by
          rw [← hrowk]
          exact List.drop_length _]
        rw [List.append_nil]
        set newRow := (List.range c).map
          (fun x => f ((g.getD k []).getD x default) ((g.getD y []).getD x default))
          with hNR
        have hG'len : (g.set k newRow).length = g.length := List.length_set _ _ _
        have hG'rect : ∀ i, i < (g.set k newRow).length →
            ((g.set k newRow).getD i []).length = c := by
          intro i hi
          rw [hG'len] at hi
          by_cases hik : i = k
          · subst hik
            rw [getD_set_self [] hi]
            rw [hNR]
            simp
          · rw [getD_set_ne [] (fun hh => hik hh.symm)]
            exact hrect i hi
        obtain ⟨ihlen, ihrect, ihval⟩ :=
          ih (y + 1) stop (g.set k newRow) (by omega) (by rw [hG'len]; exact hstop)
            hG'rect
        refine ⟨by rw [ihlen, hG'len], ?_, ?_⟩
        · intro i hi
          exact ihrect i (by rw [hG'len]; exact hi)
        · intro i hi
          rw [ihval i (by rw [hG'len]; exact hi)]
          by_cases hik : i = k
          · subst hik
            rw [if_neg (by omega)]
            rw [if_pos (by constructor <;> omega)]
            rw [getD_set_self [] hkg]
            rw [hNR]
            rw [show i + 1 - 1 - i = 0 from by omega, Nat.add_zero]
            rfl
          · by_cases hik2 : i < k
            · have hcond : (i < k ∧ k ≤ i + min k (stop - (y + 1))) ↔
                  (i < k + 1 ∧ k + 1 ≤ i + min (k + 1) (stop - y)) := by
                constructor <;> intro hcase <;> constructor <;> omega
              by_cases hpair : i < k ∧ k ≤ i + min k (stop - (y + 1))
              · rw [if_pos hpair, if_pos (hcond.mp hpair)]
                have hp : y + 1 + (k - 1 - i) = y + (k + 1 - 1 - i) := by omega
                have hpk : y + 1 + (k - 1 - i) ≠ k := by omega
                have hcell1 : ∀ x, cell (g.set k newRow) i x = cell g i x := by
                  intro x
                  unfold cell
                  rw [getD_set_ne [] (fun hh => hik hh.symm)]
                have hcell2 : ∀ x,
                    cell (g.set k newRow) (y + 1 + (k - 1 - i)) x =
                      cell g (y + (k + 1 - 1 - i)) x := by
                  intro x
                  unfold cell
                  rw [getD_set_ne [] (fun hh => hpk hh.symm), hp]
                simp only [hcell1, hcell2]
              · rw [if_neg hpair, if_neg (fun hc2 => hpair (hcond.mpr hc2))]
                rw [getD_set_ne [] (fun hh => hik hh.symm)]
            · rw [if_neg (by omega), if_neg (by omega)]
              rw [getD_set_ne [] (fun hh => hik hh.symm)]
      · rw [if_neg hy]
        refine ⟨rfl, fun i hi => hrect i hi, ?_⟩
        intro i hi
        rw [if_neg (by omega)]

/-- C2: for a rectangular grid and a pivot `row < rows_len`, `fold_at_row`
combines row `i` with its mirror row `2*row - i` (for the
`min row (rows_len - row - 1)` rows closest to the pivot, column by column,
upper cell first), leaves the other kept rows unchanged, truncates to
`row` rows and returns `row`. -/
theorem fold_at_row_spec {T : Type} [Inhabited T] (g : List (List T)) (row : Nat)
    (f : T → T → T)
    (hrect : ∀ r ∈ g, r.length = cols_len g)
    (hrow : row < rows_len g) :
    (fold_at_row g row f).2 = row ∧
    (fold_at_row g row f).1.length = row ∧
    ∀ i, i < row →
      (fold_at_row g row f).1.getD i [] =
        if row ≤ i + min row (rows_len g - row - 1) then
          (List.range (cols_len g)).map
            (fun x => f (cell g i x) (cell g (2 * row - i) x))
        else g.getD i [] := by
  have hrow' : row < g.length := hrow
  have hrect' : ∀ i, i < g.length → (g.getD i []).length = cols_len g := by
    intro i hi
    rw [List.getD_eq_getElem _ _ hi]
    exact hrect _ (List.getElem_mem hi)
  obtain ⟨hlen, -, hval⟩ :=
    foldLoop_spec f (cols_len g) row (row + 1) (rows_len g) g (by omega)
      (Nat.le_refl _) hrect'
  have h1 : (fold_at_row g row f).1 =
      (foldLoop f (rows_len g) ((List.range row).reverse) (row + 1) g).take row := rfl
  have h2 : (fold_at_row g row f).2 =
      ((foldLoop f (rows_len g) ((List.range row).reverse) (row + 1) g).take
        row).length := rfl
  set g2 := foldLoop f (rows_len g) ((List.range row).reverse) (row + 1) g with hg2
  have htake_len : (g2.take row).length = row := by
    rw [List.length_take, hlen]
    exact Nat.min_eq_left (le_of_lt hrow')
  refine ⟨?_, ?_, ?_⟩
  · rw [h2, htake_len]
  · rw [h1, htake_len]
  · intro i hi
    have hig : i < g.length := by omega
    rw [h1]
    have htake : (g2.take row).getD i [] = g2.getD i [] := by
      rw [List.getD_eq_getElem _ _ (by
        rw [List.length_take, hlen]
        exact Nat.lt_min.mpr ⟨hi, hig⟩)]
      rw [List.getD_eq_getElem _ _ (by rw [hlen]; exact hig)]
      exact List.getElem_take _
    rw [htake]
    rw [hval i hig]
    rw [show row + 1 + (row - 1 - i) = 2 * row - i from by omega]
    rw [show rows_len g - (row + 1) = rows_len g - row - 1 from by omega]
    exact if_congr (by constructor <;> intro h <;> [exact h.2; exact ⟨hi, h⟩])
      rfl rfl

/-- Witness for C2 on the 7x10 grid of the source tests (all zeros with a
final all-ones row), folded at the middle row 3. -/
theorem fold_at_row_spec_witness :
    (Grid.fold_at_row (Grid.init 6 10 (0 : Nat) ++ [List.replicate 10 1]) 3
      (fun a b => a + b)).2 = 3 :=
  (fold_at_row_spec (Grid.init 6 10 (0 : Nat) ++ [List.replicate 10 1]) 3
    (fun a b => a + b) (by decide) (by decide)).1

/-- C10: folding at a pivot at or past the row count performs no combining
and no truncation: the grid is returned unchanged together with its
original row count. -/
theorem fold_at_row_oob_frame {T : Type} [Inhabited T] (g : List (List T))
    (row : Nat) (f : T → T → T) (hrow : rows_len g ≤ row) :
    fold_at_row g row f = (g, rows_len g) := by
  have hloop : foldLoop f (rows_len g) ((List.range row).reverse) (row + 1) g = g := by
    cases hr : (List.range row).reverse with
    | nil => exact foldLoop_nil f _ _ g
    | cons a rest =>
        rw [foldLoop_cons]
        rw [if_neg (by omega)]
  show ((foldLoop f (rows_len g) ((List.range row).reverse) (row + 1) g).take row,
      ((foldLoop f (rows_len g) ((List.range row).reverse) (row + 1) g).take
        row).length) = (g, rows_len g)
  rw [hloop]
  rw [List.take_of_length_le (show g.length ≤ row from hrow)]
  rfl

/-- Witness for C10 on a 1-row grid folded at pivot 5. -/
theorem fold_at_row_oob_frame_witness :
    Grid.fold_at_row [[1, 2]] 5 (fun a b => a + b) = ([[1, 2]], 1) :=
  fold_at_row_oob_frame [[1, 2]] 5 (fun a b => a + b) (by decide)

end Grid

section Sanity

example : Grid.neighbors (Grid.init 5 5 (0 : Nat)) 2 2 =
    [(2, 1), (2, 3), (1, 2), (3, 2), (1, 1), (1, 3), (3, 1), (3, 3)] := by decide

example : Grid.neighbors [[0, 1, 2], [4, 5, 6], [7, 8, 9]] 1 0 =
    [(1, 1), (0, 0), (2, 0), (0, 1), (2, 1)] := by decide

example : Grid.row_left_coords (Grid.init 5 5 (0 : Nat)) 0 3 =
    [(0, 0), (0, 1), (0, 2)] := by decide

example : Grid.row_right_coords (Grid.init 5 5 (0 : Nat)) 0 2 =
    [(0, 3), (0, 4)] := by decide

example : Grid.col_down_coords (Grid.init 5 5 (0 : Nat)) 2 3 =
    [(3, 3), (4, 3)] := by decide

example : Grid.diag_neighbors (Grid.init 5 5 (0 : Nat)) 4 1 =
    [(3, 0), (3, 2)] := by decide

example :
    (Grid.fold_at_row
      (Grid.init 6 10 (0 : Nat) ++ [List.replicate 10 1]) 3 (fun a b => a + b)).2
      = 3 := by decide

example :
    (Grid.fold_at_row
      (Grid.init 6 10 (0 : Nat) ++ [List.replicate 10 1]) 3 (fun a b => a + b)).1
      = [List.replicate 10 1, List.replicate 10 0, List.replicate 10 0] := by decide

example : Grid.transpose [[1, 2, 3], [4, 5, 6]] = [[1, 4], [2, 5], [3, 6]] := by decide

example : Grid.rotate [[1, 2], [3, 4]] = [[3, 1], [4, 2]] := by decide

example : (Grid.from_2d [[1, 2], [3]]).isOk = false := by decide

example : (Grid.from_2d [[1, 2], [3, 4]]).isOk = true := by decide

end Sanity
